import Mathlib

/-!
Verification of the FlaxEngine frame-renderer core: draw-call collection,
sorting, batching and the per-frame orchestration.

The development shallowly embeds:
* the sorter/batcher and the render-list pool declared in
  `Source/Engine/Renderer/RenderList.h` (the implementation file
  `RenderList.cpp` is not part of the sources, so those operations are
  modelled from the specification, as marked on each definition);
* the per-frame orchestrator `RenderInner`, `RendererService::Init`,
  `Renderer::NeedMotionVectors` and the anti-aliasing resolve fork from
  `Source/Engine/Renderer/Renderer.cpp` (translated from the source).
-/

/-- Modelled from the spec: `DrawCall` (declared in `DrawCall.h`, which is not
among the sources). One renderable unit, reduced to the sort/batch-relevant
data: shader/material/geometry identifiers (the composite-key inputs), the
camera distance, the per-call instance count, and the instancing capability
data used by the `CanBatch` check (the instancing-handler identity and whether
the call supports hardware instancing at all). -/
structure DrawCall where
  shaderId : Int
  materialId : Int
  geometryId : Int
  distance : Int
  instanceCount : Nat
  handlerId : Int
  supportsInstancing : Bool
deriving DecidableEq, Repr, Inhabited

/-- Modelled from the spec: the batch key computed by
`SurfaceDrawCallHandler::GetHash` (implementation not among the sources) -
a composite of the shader, material-instance and geometry identities. -/
def batchKey (dc : DrawCall) : Int × Int × Int :=
  (dc.shaderId, dc.materialId, dc.geometryId)

/-- Modelled from the spec: `SurfaceDrawCallHandler::CanBatch`
(implementation not among the sources). Batching is permitted only between
draw calls with explicitly confirmed compatible geometry/material via a
capability check, and a batch must never merge calls requiring different
instancing handlers. -/
def CanBatch (a b : DrawCall) : Bool :=
  decide (a.handlerId = b.handlerId) && a.supportsInstancing && b.supportsInstancing

/-- Modelled from the spec: the composite sort key of `SortDrawCalls` -
the distance contribution (negated when `reverseDistance` is set) followed by
the material-instance then geometry tie-break. -/
def sortKey (reverseDistance : Bool) (dc : DrawCall) : Int × Int × Int :=
  (if reverseDistance then -dc.distance else dc.distance, dc.materialId, dc.geometryId)

/-- Lexicographic order on composite sort keys (keys are compared ascending). -/
def keyLe (a b : Int × Int × Int) : Prop :=
  a.1 < b.1 ∨ (a.1 = b.1 ∧ (a.2.1 < b.2.1 ∨ (a.2.1 = b.2.1 ∧ a.2.2 ≤ b.2.2)))

instance (a b : Int × Int × Int) : Decidable (keyLe a b) := by
  unfold keyLe; infer_instance

/-- Modelled from the spec: the batching scan accumulates a run while
consecutive sorted calls share the batch key and the `CanBatch` predicate
succeeds. -/
def canAppend (a b : DrawCall) : Bool :=
  decide (batchKey a = batchKey b) && CanBatch a b

/-- The longest run `r` following head `a` such that every consecutive pair
(starting from `a`) satisfies the adjacency predicate. -/
def takeRun (adj : DrawCall → DrawCall → Bool) : DrawCall → List DrawCall → List DrawCall
  | _, [] => []
  | a, b :: rest => if adj a b then b :: takeRun adj b rest else []

/-- Worker for `groupRuns`: the fuel argument (instantiated with the list
length, which bounds the number of runs) keeps the recursion structural. -/
def groupRunsAux (adj : DrawCall → DrawCall → Bool) :
    Nat → List DrawCall → List (List DrawCall)
  | 0, _ => []
  | _, [] => []
  | Nat.succ fuel, a :: rest =>
    let run := takeRun adj a rest
    (a :: run) :: groupRunsAux adj fuel (rest.drop run.length)

/-- Splits a list into maximal runs of consecutive elements related by `adj`
(the linear batching scan of `SortDrawCalls`). -/
def groupRuns (adj : DrawCall → DrawCall → Bool) (l : List DrawCall) :
    List (List DrawCall) :=
  groupRunsAux adj l.length l

/-- A patch of draw calls that can be submitted at once
(`DrawBatch`, RenderList.h lines 192-218). The sort key is kept as the
composite key of the batch's first call. -/
structure DrawBatch where
  SortKey : Int × Int × Int
  StartIndex : Nat
  BatchSize : Nat
  InstanceCount : Nat
deriving DecidableEq, Repr, Inhabited

/-- Closes one run of compatible draw calls into a `DrawBatch` starting at
position `start` of the sorted index array. -/
def mkBatch (reverseDistance : Bool) (start : Nat) (run : List DrawCall) : DrawBatch :=
  { SortKey := sortKey reverseDistance (run.headD default)
    StartIndex := start
    BatchSize := run.length
    InstanceCount := (run.map DrawCall.instanceCount).sum }

/-- Converts the maximal runs into contiguous `DrawBatch` records, threading
the running start position. -/
def batchesFrom (reverseDistance : Bool) : Nat → List (List DrawCall) → List DrawBatch
  | _, [] => []
  | start, run :: rest =>
    mkBatch reverseDistance start run :: batchesFrom reverseDistance (start + run.length) rest

/-- Per-pass list of draw calls (`DrawCallsList`, RenderList.h lines 305-332):
the index sequence into the draw-call registry, the externally pre-batched
indices, the derived batches, and the hardware-instancing eligibility flag. -/
structure DrawCallsList where
  Indices : List Nat
  PreBatchedDrawCalls : List Nat
  Batches : List DrawBatch
  CanUseInstancing : Bool
deriving DecidableEq, Repr, Inhabited

/-- Looks a draw call up in the frame's flat registry (out-of-range reads
yield the default call; the renderer only stores valid indices). -/
def callAt (drawCalls : List DrawCall) (i : Nat) : DrawCall :=
  drawCalls.getD i default

/-- Modelled from the spec: `RenderList::SortDrawCalls` (RenderList.cpp is
not among the sources). Computes the composite key per call, sorts the index
array by key ascending (distance contribution negated when `reverseDistance`),
then scans linearly, closing a `DrawBatch` whenever the batch key changes or
the `CanBatch` predicate fails; externally pre-batched calls are excluded
from the scan. `CanUseInstancing` is set only when hardware instancing is
available and the scan found an actual batching opportunity. -/
def SortDrawCalls (drawCalls : List DrawCall) (hardwareInstancing : Bool)
    (reverseDistance : Bool) (list : DrawCallsList) : DrawCallsList :=
  let rel : Nat → Nat → Prop := fun i j =>
    keyLe (sortKey reverseDistance (callAt drawCalls i)) (sortKey reverseDistance (callAt drawCalls j))
  let sortedIndices := list.Indices.insertionSort rel
  let sortedCalls := sortedIndices.map (callAt drawCalls)
  let runs := groupRuns canAppend sortedCalls
  let batches := batchesFrom reverseDistance 0 runs
  { list with
    Indices := sortedIndices
    Batches := batches
    CanUseInstancing := hardwareInstancing && batches.any (fun b => 1 < b.BatchSize) }

/-- A draw call with an externally supplied instanced payload
(`BatchedDrawCall`, RenderList.h lines 299-303); the per-instance payload is
reduced to its length, which is all the executor consumes here. -/
structure BatchedDrawCall where
  DrawCall : DrawCall
  InstancesCount : Nat
deriving DecidableEq, Repr, Inhabited

/-- One GPU submission issued by the pass executor: a plain draw of one
call, or a single instanced draw covering a contiguous span of calls. -/
inductive DrawSubmission
  | direct (dc : DrawCall)
  | instanced (dcs : List DrawCall)
deriving DecidableEq, Repr

/-- The draw calls covered by one submission, in issue order. -/
def DrawSubmission.calls : DrawSubmission → List DrawCall
  | .direct dc => [dc]
  | .instanced dcs => dcs

/-- Modelled from the spec: `RenderList::ExecuteDrawCalls` (RenderList.cpp is
not among the sources). Iterates the batches in order: a batch of size one is
issued as a direct draw, larger batches as one instanced draw covering the
span; the externally pre-batched calls follow as their own single instanced
submissions. -/
def ExecuteDrawCalls (drawCalls : List DrawCall) (batchedDrawCalls : List BatchedDrawCall)
    (list : DrawCallsList) : List DrawSubmission :=
  list.Batches.map (fun b =>
    if b.BatchSize = 1 then
      DrawSubmission.direct
        ((((list.Indices.drop b.StartIndex).take b.BatchSize).map (callAt drawCalls)).headD default)
    else
      DrawSubmission.instanced
        (((list.Indices.drop b.StartIndex).take b.BatchSize).map (callAt drawCalls)))
  ++ list.PreBatchedDrawCalls.map (fun i =>
    DrawSubmission.instanced [(batchedDrawCalls.getD i default).DrawCall])

/-- The full sequence of draw calls issued by a submission list, in order. -/
def drawnCalls (subs : List DrawSubmission) : List DrawCall :=
  (subs.map DrawSubmission.calls).flatten

/-- The draw calls list types (`DrawCallsListType`, RenderList.h lines 154-187). -/
inductive DrawCallsListType
  | Depth | GBuffer | GBufferNoDecals | Forward | Distortion | MotionVectors
deriving DecidableEq, Repr, Fintype

/-- The per-frame aggregate (`RenderList`, RenderList.h lines 337-592),
reduced to the registries the pool-reuse claims are about: the flat draw-call
registry, the pre-batched registry and the per-pass draw lists. -/
structure RenderList where
  DrawCalls : List DrawCall
  BatchedDrawCalls : List BatchedDrawCall
  DrawCallsLists : DrawCallsListType → DrawCallsList

/-- Modelled from the spec: `DrawCallsList::Clear` (RenderList.cpp is not
among the sources) - all arrays emptied, no stale state kept. -/
def DrawCallsList.Clear (_ : DrawCallsList) : DrawCallsList :=
  { Indices := [], PreBatchedDrawCalls := [], Batches := [], CanUseInstancing := false }

/-- Modelled from the spec: `RenderList::Clear` (RenderList.cpp is not among
the sources) - the registries and every per-pass list are emptied. -/
def RenderList.Clear (l : RenderList) : RenderList :=
  { DrawCalls := []
    BatchedDrawCalls := []
    DrawCallsLists := fun t => (l.DrawCallsLists t).Clear }

/-- A freshly allocated render list starts with empty registries and lists. -/
def RenderList.new : RenderList :=
  { DrawCalls := []
    BatchedDrawCalls := []
    DrawCallsLists := fun _ =>
      { Indices := [], PreBatchedDrawCalls := [], Batches := [], CanUseInstancing := false } }

/-- The static pool of reusable render lists backing
`RenderList::GetFromPool` / `ReturnToPool`. -/
structure RenderListPool where
  free : List RenderList

/-- Modelled from the spec: `RenderList::GetFromPool` (RenderList.cpp is not
among the sources) - reuses a pooled object when one is available, otherwise
allocates a fresh one. -/
def GetFromPool (s : RenderListPool) : RenderList × RenderListPool :=
  match s.free with
  | [] => (RenderList.new, s)
  | l :: rest => (l, { free := rest })

/-- Modelled from the spec: `RenderList::ReturnToPool` (RenderList.cpp is not
among the sources) - the returned object is fully cleared before it re-enters
the free list, so reuse always starts from the cleared state. -/
def ReturnToPool (s : RenderListPool) (l : RenderList) : RenderListPool :=
  { free := l.Clear :: s.free }

/-! ## Frame orchestrator (`Renderer.cpp`, translated from the source) -/

/-- The view modes `RenderInner` branches on (Renderer.cpp lines 338-533).
`GBufferDebug` stands for any mode accepted by `GBufferPass::IsDebugView`
(checked at line 393); `Default` is every remaining mode that runs the whole
pipeline. -/
inductive ViewMode
  | Default
  | QuadOverdraw
  | GlobalSDF
  | GlobalSurfaceAtlas
  | Emissive
  | LightmapUVsDensity
  | MaterialComplexity
  | GBufferDebug
  | LightBuffer
  | Reflections
  | NoPostFx
  | Wireframe
  | MotionVectors
deriving DecidableEq, Repr, Fintype

/-- The anti-aliasing modes dispatched by the orchestrator
(`AntialiasingMode` as consumed by Renderer.cpp lines 127-141 and 304-307). -/
inductive AntialiasingMode
  | None
  | FastApproximateAntialiasing
  | SubpixelMorphologicalAntialiasing
  | TemporalAntialiasing
deriving DecidableEq, Repr, Fintype

/-- The scratch render targets `RenderInner` leases from `RenderTargetPool`
(Renderer.cpp lines 335, 416, 496, 503). -/
inductive ScratchTarget
  | lightBuffer
  | colorGradingLUT
  | dofTemporary
deriving DecidableEq, Repr, Fintype

/-- The observable steps of one `RenderInner` invocation: render-target pool
traffic, per-pass sorting, temporal AA, and the anti-aliasing resolve fork. -/
inductive FrameEvent
  | poolGet (r : ScratchTarget)
  | poolRelease (r : ScratchTarget)
  | sortList (t : DrawCallsListType) (reverseDistance : Bool)
  | taaRender
  | aaToOutput
  | aaToTempBuffer
  | afterAACustomFx
  | afterAAMaterialFx
  | copyFrameToOutput
  | customUpscaleFx
  | multiScalerUpscale
deriving DecidableEq, Repr

/-- The branch-deciding inputs of one `RenderInner` invocation: the view
mode, the anti-aliasing state, and which optional resources/postFx the frame
uses. `lutReturned` is whether `ColorGradingPass::RenderLUT` handed back a
pooled texture, `dofReturnsTemporary` whether `DepthOfFieldPass::Render`
did; `renderingPercentageIsOne` is `Math::IsOne(task->RenderingPercentage)`
and `renderingPercentageGeOne` is `task->RenderingPercentage >= 1.0f`. -/
structure FrameConfig where
  viewMode : ViewMode
  aaFlagSet : Bool
  blendedAAMode : AntialiasingMode
  orthographic : Bool
  dofReturnsTemporary : Bool
  lutReturned : Bool
  hasAfterAAPostFx : Bool
  renderingPercentageIsOne : Bool
  renderingPercentageGeOne : Bool
  hasCustomUpscale : Bool
deriving DecidableEq, Repr

instance : Fintype FrameConfig :=
  Fintype.ofEquiv
    (ViewMode × Bool × AntialiasingMode × Bool × Bool × Bool × Bool × Bool × Bool × Bool)
    { toFun := fun x =>
        ⟨x.1, x.2.1, x.2.2.1, x.2.2.2.1, x.2.2.2.2.1, x.2.2.2.2.2.1, x.2.2.2.2.2.2.1,
         x.2.2.2.2.2.2.2.1, x.2.2.2.2.2.2.2.2.1, x.2.2.2.2.2.2.2.2.2⟩
      invFun := fun c =>
        ⟨c.viewMode, c.aaFlagSet, c.blendedAAMode, c.orthographic, c.dofReturnsTemporary,
         c.lutReturned, c.hasAfterAAPostFx, c.renderingPercentageIsOne,
         c.renderingPercentageGeOne, c.hasCustomUpscale⟩
      left_inv := fun _ => rfl
      right_inv := fun _ => rfl }

/-- The effective anti-aliasing mode computed at Renderer.cpp lines 304-307:
the blended mode when the `AntiAliasing` view flag is present (else `None`),
downgraded to `None` when it is `TemporalAntialiasing` under an orthographic
projection. -/
def effectiveAAMode (cfg : FrameConfig) : AntialiasingMode :=
  let aaMode := if cfg.aaFlagSet then cfg.blendedAAMode else AntialiasingMode.None
  if aaMode = AntialiasingMode.TemporalAntialiasing ∧ cfg.orthographic then AntialiasingMode.None
  else aaMode

/-- The anti-aliasing resolve fork (Renderer.cpp lines 537-568): with no
postFx registered after AA and full-resolution rendering, AA writes straight
to the swapchain output; otherwise AA resolves into the scratch buffer, the
remaining AfterAntiAliasingPass postFx run, and the result reaches the output
by a direct copy, a custom-upscale postFx, or the built-in multi-scaler. -/
def aaResolve (cfg : FrameConfig) : List FrameEvent :=
  if cfg.hasAfterAAPostFx = false ∧ cfg.renderingPercentageIsOne = true then
    [FrameEvent.aaToOutput]
  else
    [FrameEvent.aaToTempBuffer, FrameEvent.afterAACustomFx, FrameEvent.afterAAMaterialFx] ++
    (if cfg.renderingPercentageGeOne then [FrameEvent.copyFrameToOutput]
     else if cfg.hasCustomUpscale then [FrameEvent.customUpscaleFx]
     else [FrameEvent.multiScalerUpscale])

/-- The result of one `RenderInner` invocation: the emitted event trace and
the anti-aliasing mode written back into the frame's settings (line 307). -/
structure FrameResult where
  events : List FrameEvent
  settingsAAMode : AntialiasingMode

/-- The event trace of `RenderInner` (Renderer.cpp lines 294-569), translated
branch by branch from its parameters: the view mode, the effective
anti-aliasing mode, whether depth of field handed back a pooled temporary,
whether the color grading LUT was produced, and the anti-aliasing resolve
trace (`aaResolve`) that ends a full frame. Steps without pool/sort/AA
effects (GBuffer fill, lighting, fog, the ping-pong postFx passes over the
task-owned RT1/RT2 buffers) emit no events; each early-return branch ends
its event list. -/
def renderInnerEvents (vm : ViewMode) (aaMode : AntialiasingMode) (dof lut : Bool)
    (tail : List FrameEvent) : List FrameEvent :=
  -- lines 327-330: sort the per-pass draw call lists
  [FrameEvent.sortList DrawCallsListType.GBuffer false,
   FrameEvent.sortList DrawCallsListType.GBufferNoDecals false,
   FrameEvent.sortList DrawCallsListType.Forward true,
   FrameEvent.sortList DrawCallsListType.Distortion false] ++
  -- line 335: lease the light accumulation buffer
  [FrameEvent.poolGet ScratchTarget.lightBuffer] ++
  -- lines 338-347: quad overdraw debug view (editor)
  (if vm = ViewMode.QuadOverdraw then
    [FrameEvent.poolRelease ScratchTarget.lightBuffer]
   -- lines 350-358: global SDF pass, GBuffer fill (no pool traffic)
   -- lines 361-376: debug draw early-outs
   else if vm = ViewMode.Emissive ∨ vm = ViewMode.LightmapUVsDensity ∨
      vm = ViewMode.GlobalSurfaceAtlas ∨ vm = ViewMode.GlobalSDF then
    [FrameEvent.poolRelease ScratchTarget.lightBuffer]
   -- lines 378-384: material complexity debug view (editor)
   else if vm = ViewMode.MaterialComplexity then
    [FrameEvent.poolRelease ScratchTarget.lightBuffer]
   -- lines 387-401: motion vectors, ambient occlusion, GBuffer debug views
   else if vm = ViewMode.GBufferDebug then
    [FrameEvent.poolRelease ScratchTarget.lightBuffer]
   -- lines 404-427: lighting, GI, light-buffer view
   else if vm = ViewMode.LightBuffer then
    (if lut then [FrameEvent.poolGet ScratchTarget.colorGradingLUT] else []) ++
    (if lut then [FrameEvent.poolRelease ScratchTarget.colorGradingLUT] else []) ++
    [FrameEvent.poolRelease ScratchTarget.lightBuffer]
   -- lines 430-442: BeforeReflectionsPass postFx, reflections, reflections view
   else if vm = ViewMode.Reflections then
    [FrameEvent.poolRelease ScratchTarget.lightBuffer]
   -- lines 445-473: BeforeForwardPass postFx, fog, forward pass, release
   else
    [FrameEvent.poolRelease ScratchTarget.lightBuffer] ++
    -- lines 476-482: no-postFx modes copy the frame buffer out
    (if vm = ViewMode.NoPostFx ∨ vm = ViewMode.Wireframe then []
     else
      -- lines 485-493: BeforePostProcessingPass postFx, temporal AA
      (if aaMode = AntialiasingMode.TemporalAntialiasing then [FrameEvent.taaRender] else []) ++
      -- lines 496-509: depth of field, motion blur, color grading LUT,
      -- eye adaptation, post processing, releases
      (if dof then [FrameEvent.poolGet ScratchTarget.dofTemporary] else []) ++
      (if lut then [FrameEvent.poolGet ScratchTarget.colorGradingLUT] else []) ++
      (if lut then [FrameEvent.poolRelease ScratchTarget.colorGradingLUT] else []) ++
      (if dof then [FrameEvent.poolRelease ScratchTarget.dofTemporary] else []) ++
      -- lines 518-535: AfterPostProcessingPass postFx, motion vectors debug view
      (if vm = ViewMode.MotionVectors then []
       -- lines 537-568: anti-aliasing resolve fork
       else tail)))

/-- The per-frame orchestrator `RenderInner` (Renderer.cpp lines 294-569):
the anti-aliasing mode blend/downgrade of lines 304-307 (written back into
the settings), then the branch-by-branch event trace. -/
def RenderInner (cfg : FrameConfig) : FrameResult :=
  { events := renderInnerEvents cfg.viewMode (effectiveAAMode cfg) cfg.dofReturnsTemporary
      cfg.lutReturned (aaResolve cfg)
    settingsAAMode := effectiveAAMode cfg }

/-- The renderer backend kind checked at Renderer.cpp line 95
(`GPUDevice::Instance->GetRendererType() == RendererType::Null`); the
non-null backends are collapsed into one constructor, since `Init` only
distinguishes null from everything else. -/
inductive RendererType
  | Null
  | Hardware
deriving DecidableEq, Repr, Fintype

/-- The render passes registered by `RendererService::Init`
(Renderer.cpp lines 68-92), in registration order. -/
inductive RendererPass
  | GBufferPass | ShadowsPass | LightPass | ForwardPass | ReflectionsPass
  | ScreenSpaceReflectionsPass | AmbientOcclusionPass | DepthOfFieldPass
  | ColorGradingPass | VolumetricFogPass | EyeAdaptationPass | PostProcessingPass
  | MotionBlurPass | MultiScaler | BitonicSort | FXAA | TAA | SMAA | HistogramPass
  | GlobalSignDistanceFieldPass | GlobalSurfaceAtlasPass
  | DynamicDiffuseGlobalIlluminationPass | QuadOverdrawPass
deriving DecidableEq, Repr, Fintype

/-- The pass registration list built at Renderer.cpp lines 68-92 (the editor
build also appends `QuadOverdrawPass`). -/
def PassList : List RendererPass :=
  [RendererPass.GBufferPass, RendererPass.ShadowsPass, RendererPass.LightPass,
   RendererPass.ForwardPass, RendererPass.ReflectionsPass,
   RendererPass.ScreenSpaceReflectionsPass, RendererPass.AmbientOcclusionPass,
   RendererPass.DepthOfFieldPass, RendererPass.ColorGradingPass,
   RendererPass.VolumetricFogPass, RendererPass.EyeAdaptationPass,
   RendererPass.PostProcessingPass, RendererPass.MotionBlurPass,
   RendererPass.MultiScaler, RendererPass.BitonicSort, RendererPass.FXAA,
   RendererPass.TAA, RendererPass.SMAA, RendererPass.HistogramPass,
   RendererPass.GlobalSignDistanceFieldPass, RendererPass.GlobalSurfaceAtlasPass,
   RendererPass.DynamicDiffuseGlobalIlluminationPass, RendererPass.QuadOverdrawPass]

/-- The outcome of `RendererService::Init`: whether it reported a fatal
error (the C++ function returns `true` on error), which passes were added to
the global pass list, and which passes had their `Init()` invoked. -/
structure InitResult where
  failed : Bool
  registered : List RendererPass
  initialized : List RendererPass
deriving DecidableEq, Repr

/-- The child-service init loop (Renderer.cpp lines 101-108): passes are
initialized in order; the first failing pass is still invoked, logged as
fatal, and aborts the loop with an error result. -/
def initPasses (passInitFails : RendererPass → Bool) : List RendererPass → Bool × List RendererPass
  | [] => (false, [])
  | p :: rest =>
    if passInitFails p then (true, [p])
    else
      let r := initPasses passInitFails rest
      (r.1, p :: r.2)

/-- `RendererService::Init` (Renderer.cpp lines 65-111): registers every
pass, then - unless the backend is the null renderer, in which case it
returns success immediately - initializes each pass in order, reporting a
fatal error if any fails. -/
def RendererService.Init (rendererType : RendererType) (passInitFails : RendererPass → Bool) :
    InitResult :=
  if rendererType = RendererType.Null then
    { failed := false, registered := PassList, initialized := [] }
  else
    let r := initPasses passInitFails PassList
    { failed := r.1, registered := PassList, initialized := r.2 }

/-- `ZeroTolerance` - the positive epsilon the motion blur scale is compared
against (modelled as an exact rational rather than a 32-bit float). -/
def ZeroTolerance : ℚ := 1 / 1000000

/-- The inputs read by `Renderer::NeedMotionVectors`: the render buffer
dimensions, the camera-cut flag of the task, the `MotionBlur` view flag, the
blended motion blur settings, the view mode, and whether the SSR and TAA
passes request motion vectors. -/
structure MotionVectorsContext where
  bufferWidth : Int
  bufferHeight : Int
  isCameraCut : Bool
  viewFlagsMotionBlur : Bool
  motionBlurEnabled : Bool
  motionBlurScale : ℚ
  viewMode : ViewMode
  ssrNeedsMotionVectors : Bool
  taaNeedsMotionVectors : Bool

/-- `Renderer::NeedMotionVectors` (Renderer.cpp lines 223-234): false for
sub-16-pixel buffers or a camera cut; otherwise true exactly when motion
blur is on with a scale above the tolerance, or the view mode is
MotionVectors, or SSR or TAA request motion vectors. -/
def NeedMotionVectors (c : MotionVectorsContext) : Bool :=
  if c.bufferWidth < 16 ∨ c.bufferHeight < 16 ∨ c.isCameraCut = true then false
  else
    (c.viewFlagsMotionBlur && c.motionBlurEnabled && decide (ZeroTolerance < c.motionBlurScale)) ||
    decide (c.viewMode = ViewMode.MotionVectors) ||
    c.ssrNeedsMotionVectors || c.taaNeedsMotionVectors

/-- A concrete three-call registry (all calls batch-compatible, camera
distances 5, 1 and 3) used to evaluate the sorter on explicit input. -/
def exampleDrawCalls : List DrawCall :=
  [{ shaderId := 1, materialId := 1, geometryId := 1, distance := 5, instanceCount := 1,
     handlerId := 0, supportsInstancing := true },
   { shaderId := 1, materialId := 1, geometryId := 1, distance := 1, instanceCount := 1,
     handlerId := 0, supportsInstancing := true },
   { shaderId := 1, materialId := 1, geometryId := 1, distance := 3, instanceCount := 1,
     handlerId := 0, supportsInstancing := true }]

/-- A concrete per-pass list selecting all three example calls. -/
def exampleList : DrawCallsList :=
  { Indices := [0, 1, 2], PreBatchedDrawCalls := [], Batches := [], CanUseInstancing := false }

/-- A frame whose render buffer is only 8 pixels wide (motion blur fully on
otherwise). -/
def narrowBufferContext : MotionVectorsContext :=
  { bufferWidth := 8, bufferHeight := 128, isCameraCut := false,
    viewFlagsMotionBlur := true, motionBlurEnabled := true, motionBlurScale := 1,
    viewMode := ViewMode.Default, ssrNeedsMotionVectors := false,
    taaNeedsMotionVectors := false }

/-- A full-size frame with motion blur on and no camera cut. -/
def fullSizeContext : MotionVectorsContext :=
  { bufferWidth := 1920, bufferHeight := 1080, isCameraCut := false,
    viewFlagsMotionBlur := true, motionBlurEnabled := true, motionBlurScale := 1,
    viewMode := ViewMode.Default, ssrNeedsMotionVectors := false,
    taaNeedsMotionVectors := false }

/-- Extracts the sort invocations (pass list and `reverseDistance` flag) from
a frame event trace. -/
def sortEventsOf (e : FrameEvent) : Option (DrawCallsListType × Bool) :=
  match e with
  | FrameEvent.sortList t rev => some (t, rev)
  | _ => none

/-- An orthographic frame whose blended anti-aliasing mode is TAA. -/
def orthoTAAConfig : FrameConfig :=
  { viewMode := ViewMode.Default, aaFlagSet := true,
    blendedAAMode := AntialiasingMode.TemporalAntialiasing, orthographic := true,
    dofReturnsTemporary := false, lutReturned := true, hasAfterAAPostFx := false,
    renderingPercentageIsOne := true, renderingPercentageGeOne := true,
    hasCustomUpscale := false }

/-- A frame with no AfterAntiAliasingPass postFx rendered at full
resolution. -/
def directBlitConfig : FrameConfig :=
  { viewMode := ViewMode.Default, aaFlagSet := true,
    blendedAAMode := AntialiasingMode.FastApproximateAntialiasing, orthographic := false,
    dofReturnsTemporary := false, lutReturned := true, hasAfterAAPostFx := false,
    renderingPercentageIsOne := true, renderingPercentageGeOne := true,
    hasCustomUpscale := false }

/-- A full-resolution frame with AfterAntiAliasingPass postFx registered. -/
def postFxAAConfig : FrameConfig :=
  { viewMode := ViewMode.Default, aaFlagSet := true,
    blendedAAMode := AntialiasingMode.FastApproximateAntialiasing, orthographic := false,
    dofReturnsTemporary := false, lutReturned := true, hasAfterAAPostFx := true,
    renderingPercentageIsOne := true, renderingPercentageGeOne := true,
    hasCustomUpscale := false }

/-! ## Properties of the batching scan -/

theorem takeRun_append (adj : DrawCall → DrawCall → Bool) (a : DrawCall) (l : List DrawCall) :
    takeRun adj a l ++ l.drop (takeRun adj a l).length = l := by
  induction l generalizing a with
  | nil => simp [takeRun]
  | cons b rest ih =>
    by_cases h : adj a b = true
    · simp only [takeRun, h, if_true, List.length_cons, List.drop_succ_cons, List.cons_append,
        List.cons.injEq, true_and]
      exact ih b
    · simp [takeRun, h]

theorem takeRun_chain (adj : DrawCall → DrawCall → Bool) (a : DrawCall) (l : List DrawCall) :
    List.Chain (fun x y => adj x y = true) a (takeRun adj a l) := by
  induction l generalizing a with
  | nil => exact List.Chain.nil
  | cons b rest ih =>
    by_cases h : adj a b = true
    · simp only [takeRun, h, if_true]
      exact List.Chain.cons h (ih b)
    · simp only [takeRun, h, if_false]
      exact List.Chain.nil

theorem groupRunsAux_flatten (adj : DrawCall → DrawCall → Bool) :
    ∀ (fuel : Nat) (l : List DrawCall), l.length ≤ fuel →
      (groupRunsAux adj fuel l).flatten = l := by
  intro fuel
  induction fuel with
  | zero =>
    intro l hl
    match l, List.length_eq_zero.mp (Nat.le_zero.mp hl) with
    | [], _ => rfl
  | succ fuel ih =>
    intro l hl
    match l with
    | [] => rfl
    | a :: rest =>
      show ((a :: takeRun adj a rest) ::
        groupRunsAux adj fuel (rest.drop (takeRun adj a rest).length)).flatten = a :: rest
      simp only [List.flatten_cons, List.cons_append, List.cons.injEq, true_and]
      have hlen : (rest.drop (takeRun adj a rest).length).length ≤ fuel := by
        simp only [List.length_drop]
        simp only [List.length_cons] at hl
        omega
      rw [ih _ hlen]
      exact takeRun_append adj a rest

theorem groupRuns_flatten (adj : DrawCall → DrawCall → Bool) (l : List DrawCall) :
    (groupRuns adj l).flatten = l :=
  groupRunsAux_flatten adj l.length l (Nat.le_refl _)

theorem groupRunsAux_mem_struct (adj : DrawCall → DrawCall → Bool) :
    ∀ (fuel : Nat) (l : List DrawCall), ∀ r ∈ groupRunsAux adj fuel l,
      ∃ a t, r = a :: t ∧ List.Chain (fun x y => adj x y = true) a t := by
  intro fuel
  induction fuel with
  | zero => intro l r hr; simp [groupRunsAux] at hr
  | succ fuel ih =>
    intro l r hr
    match l with
    | [] => simp [groupRunsAux] at hr
    | a :: rest =>
      have hr2 : r ∈ (a :: takeRun adj a rest) ::
          groupRunsAux adj fuel (rest.drop (takeRun adj a rest).length) := hr
      rcases List.mem_cons.mp hr2 with h | h
      · exact ⟨a, takeRun adj a rest, h, takeRun_chain adj a rest⟩
      · exact ih _ r h

theorem groupRuns_mem_struct (adj : DrawCall → DrawCall → Bool) (l : List DrawCall) :
    ∀ r ∈ groupRuns adj l, ∃ a t, r = a :: t ∧ List.Chain (fun x y => adj x y = true) a t :=
  groupRunsAux_mem_struct adj l.length l

theorem batchesFrom_map_batchSize (rev : Bool) (runs : List (List DrawCall)) :
    ∀ s : Nat, (batchesFrom rev s runs).map DrawBatch.BatchSize = runs.map List.length := by
  induction runs with
  | nil => intro s; rfl
  | cons run rest ih =>
    intro s
    simp only [batchesFrom, List.map_cons, List.cons.injEq]
    exact ⟨rfl, ih (s + run.length)⟩

theorem batchesFrom_length (rev : Bool) (runs : List (List DrawCall)) :
    ∀ s : Nat, (batchesFrom rev s runs).length = runs.length := by
  induction runs with
  | nil => intro s; rfl
  | cons run rest ih =>
    intro s
    simp only [batchesFrom, List.length_cons]
    rw [ih (s + run.length)]

theorem batchesFrom_head_start (rev : Bool) (runs : List (List DrawCall)) (s : Nat)
    (h : runs ≠ []) : ((batchesFrom rev s runs).headD default).StartIndex = s := by
  cases runs with
  | nil => exact absurd rfl h
  | cons run rest => rfl

theorem batchesFrom_contiguous (rev : Bool) (runs : List (List DrawCall)) :
    ∀ (s i : Nat), i + 1 < (batchesFrom rev s runs).length →
      ((batchesFrom rev s runs).getD (i + 1) default).StartIndex
        = ((batchesFrom rev s runs).getD i default).StartIndex
          + ((batchesFrom rev s runs).getD i default).BatchSize := by
  induction runs with
  | nil => intro s i h; simp [batchesFrom] at h
  | cons run rest ih =>
    intro s i h
    match i with
    | 0 =>
      cases rest with
      | nil => simp [batchesFrom] at h
      | cons r2 t2 => simp [batchesFrom, mkBatch]
    | Nat.succ i =>
      simp only [batchesFrom, List.getD_cons_succ]
      refine ih (s + run.length) i ?_
      simpa [batchesFrom] using h

theorem contiguous_start_mono (bs : List DrawBatch)
    (hc : ∀ i, i + 1 < bs.length →
      (bs.getD (i + 1) default).StartIndex
        = (bs.getD i default).StartIndex + (bs.getD i default).BatchSize) :
    ∀ i j, i < j → j < bs.length →
      (bs.getD i default).StartIndex + (bs.getD i default).BatchSize
        ≤ (bs.getD j default).StartIndex := by
  intro i j
  induction j with
  | zero => omega
  | succ j ihj =>
    intro hij hj
    have hcons := hc j (by omega)
    rcases Nat.lt_succ_iff_lt_or_eq.mp hij with h | h
    · have := ihj h (by omega)
      omega
    · subst h; omega

theorem batchesFrom_mem_slice (rev : Bool) (runs : List (List DrawCall)) :
    ∀ (pre : List DrawCall) (b : DrawBatch), b ∈ batchesFrom rev pre.length runs →
      ∃ r, r ∈ runs ∧ b.BatchSize = r.length ∧ pre.length ≤ b.StartIndex ∧
        ((pre ++ runs.flatten).drop b.StartIndex).take b.BatchSize = r := by
  induction runs with
  | nil => intro pre b h; simp [batchesFrom] at h
  | cons run rest ih =>
    intro pre b h
    simp only [batchesFrom, List.mem_cons] at h
    rcases h with h | h
    · subst h
      refine ⟨run, List.mem_cons_self _ _, rfl, Nat.le_refl _, ?_⟩
      show ((pre ++ (run :: rest).flatten).drop pre.length).take run.length = run
      rw [List.flatten_cons, List.drop_left, List.take_left]
    · have h2 : b ∈ batchesFrom rev (pre ++ run).length rest := by
        simpa [List.length_append] using h
      obtain ⟨r, hr, hsz, hle, hslice⟩ := ih (pre ++ run) b h2
      refine ⟨r, List.mem_cons_of_mem _ hr, hsz, ?_, ?_⟩
      · simp only [List.length_append] at hle
        omega
      · rw [List.flatten_cons, ← List.append_assoc]
        exact hslice

theorem canAppend_props (a b : DrawCall) (h : canAppend a b = true) :
    batchKey a = batchKey b ∧ a.handlerId = b.handlerId ∧
      a.supportsInstancing = true ∧ b.supportsInstancing = true := by
  simp only [canAppend, CanBatch, Bool.and_eq_true, decide_eq_true_eq] at h
  tauto

theorem chain_canAppend_all (a : DrawCall) (t : List DrawCall)
    (hch : List.Chain (fun x y => canAppend x y = true) a t) (hne : t ≠ []) :
    ∀ x ∈ a :: t, x.supportsInstancing = true ∧ x.handlerId = a.handlerId ∧
      batchKey x = batchKey a := by
  induction t generalizing a with
  | nil => exact absurd rfl hne
  | cons b t2 ih =>
    obtain ⟨hab, hch2⟩ := List.chain_cons.mp hch
    obtain ⟨hk, hh, hfa, hfb⟩ := canAppend_props a b hab
    intro x hx
    rcases List.mem_cons.mp hx with rfl | hx2
    · exact ⟨hfa, rfl, rfl⟩
    · cases t2 with
      | nil =>
        have hxb : x = b := by simpa using hx2
        subst hxb
        exact ⟨hfb, hh.symm, hk.symm⟩
      | cons c t3 =>
        obtain ⟨h1, h2, h3⟩ := ih b hch2 (by simp) x hx2
        exact ⟨h1, h2.trans hh.symm, h3.trans hk.symm⟩

theorem run_canBatch_pairwise (a : DrawCall) (t : List DrawCall)
    (hch : List.Chain (fun x y => canAppend x y = true) a t) (hne : t ≠ [])
    (x y : DrawCall) (hx : x ∈ a :: t) (hy : y ∈ a :: t) :
    CanBatch x y = true ∧ batchKey x = batchKey y := by
  obtain ⟨hxf, hxh, hxk⟩ := chain_canAppend_all a t hch hne x hx
  obtain ⟨hyf, hyh, hyk⟩ := chain_canAppend_all a t hch hne y hy
  refine ⟨?_, hxk.trans hyk.symm⟩
  simp [CanBatch, hxf, hyf, hxh.trans hyh.symm]

theorem slice_getD (xs r : List DrawCall) (start size p : Nat)
    (hr : (xs.drop start).take size = r) (hlen : r.length = size) (hp : p < size) :
    r.getD p default = xs.getD (start + p) default := by
  subst hr
  have hp2 : p < (xs.drop start).length := by
    rw [List.length_take] at hlen
    omega
  rw [List.getD_eq_getElem?_getD, List.getD_eq_getElem?_getD,
    List.getElem?_take_of_lt hp, List.getElem?_drop]

theorem map_callAt_getD (dcs : List DrawCall) (idx : List Nat) (n : Nat) (h : n < idx.length) :
    (idx.map (callAt dcs)).getD n default = callAt dcs (idx.getD n 0) := by
  rw [List.getD_eq_getElem _ _ (by simpa using h), List.getD_eq_getElem _ _ h,
    List.getElem_map]

theorem SortDrawCalls_Indices (dcs : List DrawCall) (hw rev : Bool) (L : DrawCallsList) :
    (SortDrawCalls dcs hw rev L).Indices
      = L.Indices.insertionSort (fun i j =>
          keyLe (sortKey rev (callAt dcs i)) (sortKey rev (callAt dcs j))) := rfl

theorem SortDrawCalls_Batches (dcs : List DrawCall) (hw rev : Bool) (L : DrawCallsList) :
    (SortDrawCalls dcs hw rev L).Batches
      = batchesFrom rev 0
          (groupRuns canAppend ((SortDrawCalls dcs hw rev L).Indices.map (callAt dcs))) := rfl

theorem SortDrawCalls_PreBatched (dcs : List DrawCall) (hw rev : Bool) (L : DrawCallsList) :
    (SortDrawCalls dcs hw rev L).PreBatchedDrawCalls = L.PreBatchedDrawCalls := rfl

theorem batchesFrom_spans (rev : Bool) (runs : List (List DrawCall)) :
    ∀ pre : List DrawCall,
      (batchesFrom rev pre.length runs).map
        (fun b => ((pre ++ runs.flatten).drop b.StartIndex).take b.BatchSize) = runs := by
  induction runs with
  | nil => intro pre; rfl
  | cons run rest ih =>
    intro pre
    simp only [batchesFrom, List.map_cons]
    refine congrArg₂ List.cons ?_ ?_
    · show ((pre ++ (run :: rest).flatten).drop pre.length).take run.length = run
      rw [List.flatten_cons, List.drop_left, List.take_left]
    · have h2 := ih (pre ++ run)
      rw [List.length_append] at h2
      simp only [List.flatten_cons, ← List.append_assoc]
      exact h2

theorem flatten_singletons (f : Nat → DrawCall) (l : List Nat) :
    (l.map (fun i => [f i])).flatten = l.map f := by
  induction l with
  | nil => rfl
  | cons a t ih => simp [ih]

theorem ExecuteDrawCalls_drawn (dcs : List DrawCall) (bdcs : List BatchedDrawCall)
    (hw rev : Bool) (L : DrawCallsList) :
    drawnCalls (ExecuteDrawCalls dcs bdcs (SortDrawCalls dcs hw rev L))
      = (SortDrawCalls dcs hw rev L).Indices.map (callAt dcs)
        ++ L.PreBatchedDrawCalls.map (fun i => (bdcs.getD i default).DrawCall) := by
  have hfl : (groupRuns canAppend ((SortDrawCalls dcs hw rev L).Indices.map (callAt dcs))).flatten
      = (SortDrawCalls dcs hw rev L).Indices.map (callAt dcs) :=
    groupRuns_flatten canAppend _
  unfold drawnCalls ExecuteDrawCalls
  rw [List.map_append, List.flatten_append]
  refine congrArg₂ (· ++ ·) ?_ ?_
  · rw [List.map_map]
    rw [List.map_congr_left (g := fun b =>
      ((((SortDrawCalls dcs hw rev L).Indices.map (callAt dcs)).drop b.StartIndex).take b.BatchSize))
      ?_]
    · rw [SortDrawCalls_Batches]
      have hsp := batchesFrom_spans rev
        (groupRuns canAppend ((SortDrawCalls dcs hw rev L).Indices.map (callAt dcs))) []
      simp only [List.length_nil, List.nil_append] at hsp
      rw [hfl] at hsp
      rw [hsp]
      exact hfl
    · intro b hb
      rw [SortDrawCalls_Batches] at hb
      obtain ⟨r, hr, hsz, hst, hslice⟩ := batchesFrom_mem_slice rev _ [] b (by simpa using hb)
      simp only [List.nil_append] at hslice
      rw [hfl] at hslice
      have hspan : (((SortDrawCalls dcs hw rev L).Indices.drop b.StartIndex).take b.BatchSize).map
          (callAt dcs)
          = ((((SortDrawCalls dcs hw rev L).Indices.map (callAt dcs)).drop b.StartIndex).take
              b.BatchSize) := by
        rw [List.map_take, List.map_drop]
      by_cases hone : b.BatchSize = 1
      · simp only [Function.comp_apply, if_pos hone, DrawSubmission.calls]
        rw [hspan, hslice]
        match r, hsz.symm.trans hone with
        | [x], _ => rfl
      · simp only [Function.comp_apply, if_neg hone, DrawSubmission.calls]
        rw [hspan]
  · rw [List.map_map]
    exact flatten_singletons (fun i => (bdcs.getD i default).DrawCall) _

theorem groupRuns_ne_nil (adj : DrawCall → DrawCall → Bool) (l : List DrawCall) (h : l ≠ []) :
    groupRuns adj l ≠ [] := by
  cases l with
  | nil => exact absurd rfl h
  | cons a rest => simp [groupRuns, groupRunsAux]

/-- Claim C1: for every non-empty `DrawCallsList`, the `DrawBatch` sequence
produced by `SortDrawCalls` partitions the sorted index array - there is at
least one batch, the first batch starts at position 0, each batch's
`StartIndex` equals the previous batch's `StartIndex + BatchSize`
(contiguous), earlier batch spans end at or before later spans begin
(non-overlapping), and the `BatchSize` fields sum to `Indices.Count`. -/
theorem SortDrawCalls_batches_partition (dcs : List DrawCall) (hw rev : Bool)
    (L : DrawCallsList) (hne : L.Indices ≠ []) :
    ((SortDrawCalls dcs hw rev L).Batches ≠ [] ∧
      ((SortDrawCalls dcs hw rev L).Batches.headD default).StartIndex = 0) ∧
    (∀ i, i + 1 < (SortDrawCalls dcs hw rev L).Batches.length →
      ((SortDrawCalls dcs hw rev L).Batches.getD (i + 1) default).StartIndex
        = ((SortDrawCalls dcs hw rev L).Batches.getD i default).StartIndex
          + ((SortDrawCalls dcs hw rev L).Batches.getD i default).BatchSize) ∧
    (∀ i j, i < j → j < (SortDrawCalls dcs hw rev L).Batches.length →
      ((SortDrawCalls dcs hw rev L).Batches.getD i default).StartIndex
        + ((SortDrawCalls dcs hw rev L).Batches.getD i default).BatchSize
        ≤ ((SortDrawCalls dcs hw rev L).Batches.getD j default).StartIndex) ∧
    ((SortDrawCalls dcs hw rev L).Batches.map DrawBatch.BatchSize).sum = L.Indices.length := by
  have hlen : (SortDrawCalls dcs hw rev L).Indices.length = L.Indices.length := by
    rw [SortDrawCalls_Indices, List.length_insertionSort]
  have hxs_ne : (SortDrawCalls dcs hw rev L).Indices.map (callAt dcs) ≠ [] := by
    intro hcon
    have : L.Indices.length = 0 := by
      rw [← hlen, ← List.length_map (f := callAt dcs), hcon]
      rfl
    exact hne (List.length_eq_zero.mp this)
  have hruns_ne : groupRuns canAppend ((SortDrawCalls dcs hw rev L).Indices.map (callAt dcs)) ≠ [] :=
    groupRuns_ne_nil canAppend _ hxs_ne
  refine ⟨⟨?_, ?_⟩, ?_, ?_, ?_⟩
  · rw [SortDrawCalls_Batches]
    intro hcon
    have := batchesFrom_length rev
      (groupRuns canAppend ((SortDrawCalls dcs hw rev L).Indices.map (callAt dcs))) 0
    rw [hcon] at this
    exact hruns_ne (List.length_eq_zero.mp this.symm)
  · rw [SortDrawCalls_Batches]
    exact batchesFrom_head_start rev _ 0 hruns_ne
  · rw [SortDrawCalls_Batches]
    exact fun i h => batchesFrom_contiguous rev _ 0 i h
  · intro i j hij hj
    refine contiguous_start_mono (SortDrawCalls dcs hw rev L).Batches ?_ i j hij hj
    rw [SortDrawCalls_Batches]
    exact fun i h => batchesFrom_contiguous rev _ 0 i h
  · rw [SortDrawCalls_Batches, batchesFrom_map_batchSize, ← List.length_flatten,
      groupRuns_flatten, List.length_map, hlen]

theorem SortDrawCalls_batches_partition_witness :
    exampleList.Indices ≠ [] ∧
    (((SortDrawCalls exampleDrawCalls true false exampleList).Batches ≠ [] ∧
      ((SortDrawCalls exampleDrawCalls true false exampleList).Batches.headD
          default).StartIndex = 0) ∧
    (∀ i, i + 1 < (SortDrawCalls exampleDrawCalls true false exampleList).Batches.length →
      ((SortDrawCalls exampleDrawCalls true false exampleList).Batches.getD (i + 1)
          default).StartIndex
        = ((SortDrawCalls exampleDrawCalls true false exampleList).Batches.getD i
            default).StartIndex
          + ((SortDrawCalls exampleDrawCalls true false exampleList).Batches.getD i
              default).BatchSize) ∧
    (∀ i j, i < j → j < (SortDrawCalls exampleDrawCalls true false exampleList).Batches.length →
      ((SortDrawCalls exampleDrawCalls true false exampleList).Batches.getD i
          default).StartIndex
        + ((SortDrawCalls exampleDrawCalls true false exampleList).Batches.getD i
            default).BatchSize
        ≤ ((SortDrawCalls exampleDrawCalls true false exampleList).Batches.getD j
            default).StartIndex) ∧
    ((SortDrawCalls exampleDrawCalls true false exampleList).Batches.map
        DrawBatch.BatchSize).sum = exampleList.Indices.length) :=
  ⟨by decide, SortDrawCalls_batches_partition exampleDrawCalls true false exampleList (by decide)⟩

/-- Claim C2: two draw calls placed by `SortDrawCalls` into the same
`DrawBatch` (distinct positions `p` and `q` of the batch's span) always
satisfy the `CanBatch` predicate and share the batch key; consequently a
pair with equal batch key on which `CanBatch` fails is never merged into one
instanced batch. -/
theorem SortDrawCalls_canBatch_within_batch (dcs : List DrawCall) (hw rev : Bool)
    (L : DrawCallsList) (b : DrawBatch) (hb : b ∈ (SortDrawCalls dcs hw rev L).Batches)
    (p q : Nat) (hp : p < b.BatchSize) (hq : q < b.BatchSize) (hpq : p ≠ q) :
    CanBatch (callAt dcs ((SortDrawCalls dcs hw rev L).Indices.getD (b.StartIndex + p) 0))
        (callAt dcs ((SortDrawCalls dcs hw rev L).Indices.getD (b.StartIndex + q) 0)) = true ∧
      batchKey (callAt dcs ((SortDrawCalls dcs hw rev L).Indices.getD (b.StartIndex + p) 0))
        = batchKey (callAt dcs ((SortDrawCalls dcs hw rev L).Indices.getD (b.StartIndex + q) 0)) := by
  rw [SortDrawCalls_Batches] at hb
  obtain ⟨r, hr, hsz, hst, hslice⟩ :=
    batchesFrom_mem_slice rev _ [] b (by simpa using hb)
  simp only [List.nil_append] at hslice
  rw [groupRuns_flatten] at hslice
  have hrlen : r.length = b.BatchSize := hsz.symm
  have hbound : b.StartIndex + b.BatchSize
      ≤ ((SortDrawCalls dcs hw rev L).Indices.map (callAt dcs)).length := by
    have hlen := congrArg List.length hslice
    rw [List.length_take, List.length_drop] at hlen
    omega
  have hgp := slice_getD _ r b.StartIndex b.BatchSize p hslice hrlen hp
  have hgq := slice_getD _ r b.StartIndex b.BatchSize q hslice hrlen hq
  have hip : b.StartIndex + p < (SortDrawCalls dcs hw rev L).Indices.length := by
    rw [List.length_map] at hbound
    omega
  have hiq : b.StartIndex + q < (SortDrawCalls dcs hw rev L).Indices.length := by
    rw [List.length_map] at hbound
    omega
  have hmp := map_callAt_getD dcs _ (b.StartIndex + p) hip
  have hmq := map_callAt_getD dcs _ (b.StartIndex + q) hiq
  obtain ⟨a, t, hrt, hch⟩ := groupRuns_mem_struct canAppend _ r hr
  have htne : t ≠ [] := by
    intro hcon
    rw [hrt, hcon] at hrlen
    simp only [List.length_cons, List.length_nil] at hrlen
    omega
  have hpmem : r.getD p default ∈ r := by
    have hpl : p < r.length := by omega
    rw [List.getD_eq_getElem _ _ hpl]
    exact List.getElem_mem hpl
  have hqmem : r.getD q default ∈ r := by
    have hql : q < r.length := by omega
    rw [List.getD_eq_getElem _ _ hql]
    exact List.getElem_mem hql
  rw [hrt] at hpmem hqmem
  obtain ⟨hcb, hbk⟩ := run_canBatch_pairwise a t hch htne _ _ hpmem hqmem
  rw [← hmp, ← hmq, ← hgp, ← hgq, hrt]
  exact ⟨hcb, hbk⟩

theorem SortDrawCalls_canBatch_within_batch_witness :
    ((SortDrawCalls exampleDrawCalls true false exampleList).Batches.headD default)
        ∈ (SortDrawCalls exampleDrawCalls true false exampleList).Batches ∧
    (CanBatch
        (callAt exampleDrawCalls
          ((SortDrawCalls exampleDrawCalls true false exampleList).Indices.getD
            (((SortDrawCalls exampleDrawCalls true false exampleList).Batches.headD
                default).StartIndex + 0) 0))
        (callAt exampleDrawCalls
          ((SortDrawCalls exampleDrawCalls true false exampleList).Indices.getD
            (((SortDrawCalls exampleDrawCalls true false exampleList).Batches.headD
                default).StartIndex + 1) 0)) = true ∧
      batchKey
        (callAt exampleDrawCalls
          ((SortDrawCalls exampleDrawCalls true false exampleList).Indices.getD
            (((SortDrawCalls exampleDrawCalls true false exampleList).Batches.headD
                default).StartIndex + 0) 0))
        = batchKey
          (callAt exampleDrawCalls
            ((SortDrawCalls exampleDrawCalls true false exampleList).Indices.getD
              (((SortDrawCalls exampleDrawCalls true false exampleList).Batches.headD
                  default).StartIndex + 1) 0))) :=
  ⟨by decide,
    SortDrawCalls_canBatch_within_batch exampleDrawCalls true false exampleList _
      (by decide) 0 1 (by decide) (by decide) (by decide)⟩

theorem keyLe_total (a b : Int × Int × Int) : keyLe a b ∨ keyLe b a := by
  obtain ⟨a1, a2, a3⟩ := a
  obtain ⟨b1, b2, b3⟩ := b
  simp only [keyLe]
  omega

theorem keyLe_trans (a b c : Int × Int × Int) (h1 : keyLe a b) (h2 : keyLe b c) : keyLe a c := by
  obtain ⟨a1, a2, a3⟩ := a
  obtain ⟨b1, b2, b3⟩ := b
  obtain ⟨c1, c2, c3⟩ := c
  simp only [keyLe] at h1 h2 ⊢
  omega

/-- Claim C4: `SortDrawCalls` orders the index array by ascending composite
sort key, and `reverseDistance` negates the distance contribution before
comparison: on the three-call registry with camera distances [5, 1, 3] the
resulting draw order has distances [1, 3, 5] with `reverseDistance = false`
and [5, 3, 1] with `reverseDistance = true`. -/
theorem SortDrawCalls_distance_order :
    (∀ (dcs : List DrawCall) (hw rev : Bool) (L : DrawCallsList),
      List.Sorted
        (fun i j => keyLe (sortKey rev (callAt dcs i)) (sortKey rev (callAt dcs j)))
        (SortDrawCalls dcs hw rev L).Indices) ∧
    ((SortDrawCalls exampleDrawCalls true false exampleList).Indices.map
        (fun i => (callAt exampleDrawCalls i).distance) = [1, 3, 5]) ∧
    ((SortDrawCalls exampleDrawCalls true true exampleList).Indices.map
        (fun i => (callAt exampleDrawCalls i).distance) = [5, 3, 1]) := by
  refine ⟨?_, by decide, by decide⟩
  intro dcs hw rev L
  rw [SortDrawCalls_Indices]
  haveI : IsTotal Nat
      (fun i j => keyLe (sortKey rev (callAt dcs i)) (sortKey rev (callAt dcs j))) :=
    ⟨fun i j => keyLe_total _ _⟩
  haveI : IsTrans Nat
      (fun i j => keyLe (sortKey rev (callAt dcs i)) (sortKey rev (callAt dcs j))) :=
    ⟨fun i j k => keyLe_trans _ _ _⟩
  exact List.sorted_insertionSort _ _

/-- Claim C5: `GetFromPool`, then `ReturnToPool` on the returned object, then
`GetFromPool` again yields a render list in the fully cleared state - no draw
calls (`DrawCalls.Count == 0`), no pre-batched draw calls, and every per-pass
`DrawCallsList` with empty `Indices`, `PreBatchedDrawCalls` and `Batches`. -/
theorem GetFromPool_after_ReturnToPool_cleared (s : RenderListPool) :
    ((GetFromPool (ReturnToPool (GetFromPool s).2 (GetFromPool s).1)).1.DrawCalls.length = 0 ∧
      (GetFromPool (ReturnToPool (GetFromPool s).2 (GetFromPool s).1)).1.BatchedDrawCalls = []) ∧
    ∀ t : DrawCallsListType,
      ((GetFromPool (ReturnToPool (GetFromPool s).2 (GetFromPool s).1)).1.DrawCallsLists
          t).Indices = [] ∧
      ((GetFromPool (ReturnToPool (GetFromPool s).2 (GetFromPool s).1)).1.DrawCallsLists
          t).PreBatchedDrawCalls = [] ∧
      ((GetFromPool (ReturnToPool (GetFromPool s).2 (GetFromPool s).1)).1.DrawCallsLists
          t).Batches = [] := by
  obtain ⟨free⟩ := s
  cases free <;>
    simp [GetFromPool, ReturnToPool, RenderList.Clear, DrawCallsList.Clear]

/-- Claim C8: with the null/headless renderer backend,
`RendererService::Init` returns success (the C++ function returns `false`,
reporting no fatal error) and initializes no render pass, whatever the init
behaviour of the individual passes would have been. -/
theorem RendererService_Init_null_backend (passInitFails : RendererPass → Bool) :
    (RendererService.Init RendererType.Null passInitFails).failed = false ∧
    (RendererService.Init RendererType.Null passInitFails).initialized = [] :=
  ⟨rfl, rfl⟩

/-- Claim C9: `NeedMotionVectors` returns false whenever the buffer is
narrower or shorter than 16 pixels or the task is a camera cut, regardless of
every other input; otherwise it returns true exactly when motion blur is
enabled (view flag set, setting enabled, scale above the tolerance), or the
view mode is MotionVectors, or SSR or TAA request motion vectors. -/
theorem NeedMotionVectors_spec (c : MotionVectorsContext) :
    (c.bufferWidth < 16 ∨ c.bufferHeight < 16 ∨ c.isCameraCut = true →
      NeedMotionVectors c = false) ∧
    (16 ≤ c.bufferWidth → 16 ≤ c.bufferHeight → c.isCameraCut = false →
      (NeedMotionVectors c = true ↔
        ((c.viewFlagsMotionBlur = true ∧ c.motionBlurEnabled = true ∧
            ZeroTolerance < c.motionBlurScale) ∨
          c.viewMode = ViewMode.MotionVectors ∨
          c.ssrNeedsMotionVectors = true ∨ c.taaNeedsMotionVectors = true))) := by
  constructor
  · intro h
    rw [NeedMotionVectors, if_pos h]
  · intro h1 h2 h3
    have hcond : ¬(c.bufferWidth < 16 ∨ c.bufferHeight < 16 ∨ c.isCameraCut = true) := by
      rw [h3]
      push_neg
      exact ⟨h1, h2, fun hcon => by simp at hcon⟩
    rw [NeedMotionVectors, if_neg hcond]
    simp only [Bool.or_eq_true, Bool.and_eq_true, decide_eq_true_eq]
    tauto

theorem NeedMotionVectors_spec_witness :
    NeedMotionVectors narrowBufferContext = false ∧
    (NeedMotionVectors fullSizeContext = true ↔
      ((fullSizeContext.viewFlagsMotionBlur = true ∧
          fullSizeContext.motionBlurEnabled = true ∧
          ZeroTolerance < fullSizeContext.motionBlurScale) ∨
        fullSizeContext.viewMode = ViewMode.MotionVectors ∨
        fullSizeContext.ssrNeedsMotionVectors = true ∨
        fullSizeContext.taaNeedsMotionVectors = true)) :=
  ⟨(NeedMotionVectors_spec narrowBufferContext).1 (by decide),
    (NeedMotionVectors_spec fullSizeContext).2 (by decide) (by decide) (by decide)⟩

theorem aaResolve_pool_free (cfg : FrameConfig) (r : ScratchTarget) :
    (aaResolve cfg).count (FrameEvent.poolGet r) = 0 ∧
      (aaResolve cfg).count (FrameEvent.poolRelease r) = 0 := by
  unfold aaResolve
  split_ifs <;> cases r <;> simp [List.count_append, List.count_cons, List.count_nil]

set_option maxHeartbeats 2000000 in
theorem renderInnerEvents_pool_balanced (vm : ViewMode) (aaMode : AntialiasingMode)
    (dof lut : Bool) (tail : List FrameEvent) (r : ScratchTarget)
    (h1 : tail.count (FrameEvent.poolGet r) = 0)
    (h2 : tail.count (FrameEvent.poolRelease r) = 0) :
    ((renderInnerEvents vm aaMode dof lut tail).count (FrameEvent.poolRelease r)
      = (renderInnerEvents vm aaMode dof lut tail).count (FrameEvent.poolGet r)) ∧
    (renderInnerEvents vm aaMode dof lut tail).count (FrameEvent.poolGet r) ≤ 1 := by
  unfold renderInnerEvents
  split_ifs <;> cases r <;>
    simp_all [List.count_append, List.count_cons, List.count_nil]

/-- Claim C3: in every execution path of `RenderInner` - every view-mode
early return and every anti-aliasing fork - each scratch render target
leased from the pool during the invocation (`lightBuffer`,
`colorGradingLUT`, `dofTemporary`) is acquired at most once and released
exactly as many times as it was acquired, so pool checkouts and checkins
balance per invocation. -/
theorem RenderInner_pool_balanced (cfg : FrameConfig) (r : ScratchTarget) :
    ((RenderInner cfg).events.count (FrameEvent.poolRelease r)
      = (RenderInner cfg).events.count (FrameEvent.poolGet r)) ∧
    (RenderInner cfg).events.count (FrameEvent.poolGet r) ≤ 1 :=
  renderInnerEvents_pool_balanced cfg.viewMode (effectiveAAMode cfg)
    cfg.dofReturnsTemporary cfg.lutReturned (aaResolve cfg) r
    (aaResolve_pool_free cfg r).1 (aaResolve_pool_free cfg r).2

theorem aaResolve_sort_free (cfg : FrameConfig) :
    (aaResolve cfg).filterMap sortEventsOf = [] := by
  unfold aaResolve
  split_ifs <;> rfl

set_option maxHeartbeats 2000000 in
theorem renderInnerEvents_sort_policy (vm : ViewMode) (aaMode : AntialiasingMode)
    (dof lut : Bool) (tail : List FrameEvent)
    (h : tail.filterMap sortEventsOf = []) :
    (renderInnerEvents vm aaMode dof lut tail).filterMap sortEventsOf
      = [(DrawCallsListType.GBuffer, false), (DrawCallsListType.GBufferNoDecals, false),
         (DrawCallsListType.Forward, true), (DrawCallsListType.Distortion, false)] := by
  unfold renderInnerEvents
  split_ifs <;> simp_all [List.filterMap_append, sortEventsOf]

/-- Claim C6: the orchestrator sorts the GBuffer, GBufferNoDecals and
Distortion lists front-to-back (`reverseDistance = false`) and the Forward
(transparency) list back-to-front (`reverseDistance = true`) on every frame,
in that order; and within a pass the executor issues exactly the sorted
order - the flattened submission sequence is the sorted index array (followed
by the externally pre-batched calls, which bypass sorting). -/
theorem RenderInner_sort_policy_and_draw_order :
    (∀ cfg : FrameConfig,
      (RenderInner cfg).events.filterMap sortEventsOf
        = [(DrawCallsListType.GBuffer, false), (DrawCallsListType.GBufferNoDecals, false),
           (DrawCallsListType.Forward, true), (DrawCallsListType.Distortion, false)]) ∧
    (∀ (dcs : List DrawCall) (bdcs : List BatchedDrawCall) (hw rev : Bool)
        (L : DrawCallsList),
      drawnCalls (ExecuteDrawCalls dcs bdcs (SortDrawCalls dcs hw rev L))
        = (SortDrawCalls dcs hw rev L).Indices.map (callAt dcs)
          ++ L.PreBatchedDrawCalls.map (fun i => (bdcs.getD i default).DrawCall)) :=
  ⟨fun cfg =>
    renderInnerEvents_sort_policy cfg.viewMode (effectiveAAMode cfg) cfg.dofReturnsTemporary
      cfg.lutReturned (aaResolve cfg) (aaResolve_sort_free cfg),
   ExecuteDrawCalls_drawn⟩

theorem aaResolve_no_taa (cfg : FrameConfig) :
    FrameEvent.taaRender ∉ aaResolve cfg := by
  unfold aaResolve
  split_ifs <;> simp

set_option maxHeartbeats 2000000 in
theorem renderInnerEvents_no_taa (vm : ViewMode) (aaMode : AntialiasingMode)
    (dof lut : Bool) (tail : List FrameEvent)
    (hm : aaMode ≠ AntialiasingMode.TemporalAntialiasing)
    (ht : FrameEvent.taaRender ∉ tail) :
    FrameEvent.taaRender ∉ renderInnerEvents vm aaMode dof lut tail := by
  unfold renderInnerEvents
  split_ifs <;> simp_all [List.mem_append]

theorem effectiveAAMode_ortho (cfg : FrameConfig) (h : cfg.orthographic = true) :
    effectiveAAMode cfg ≠ AntialiasingMode.TemporalAntialiasing ∧
    (cfg.blendedAAMode = AntialiasingMode.TemporalAntialiasing →
      effectiveAAMode cfg = AntialiasingMode.None) := by
  unfold effectiveAAMode
  by_cases hf : cfg.aaFlagSet <;>
    by_cases hb : cfg.blendedAAMode = AntialiasingMode.TemporalAntialiasing <;>
      split_ifs <;> simp_all

/-- Claim C10: under an orthographic projection, a blended
`TemporalAntialiasing` mode is silently downgraded to `None` (and the
downgraded mode is what is written back into the frame's settings), and the
TAA pass is never executed. -/
theorem RenderInner_taa_ortho_downgrade (cfg : FrameConfig)
    (horto : cfg.orthographic = true) :
    (cfg.blendedAAMode = AntialiasingMode.TemporalAntialiasing →
      (RenderInner cfg).settingsAAMode = AntialiasingMode.None) ∧
    (RenderInner cfg).settingsAAMode ≠ AntialiasingMode.TemporalAntialiasing ∧
    FrameEvent.taaRender ∉ (RenderInner cfg).events := by
  obtain ⟨hne, hdown⟩ := effectiveAAMode_ortho cfg horto
  exact ⟨hdown, hne, renderInnerEvents_no_taa _ _ _ _ _ hne (aaResolve_no_taa cfg)⟩

theorem RenderInner_taa_ortho_downgrade_witness :
    orthoTAAConfig.orthographic = true ∧
    ((orthoTAAConfig.blendedAAMode = AntialiasingMode.TemporalAntialiasing →
        (RenderInner orthoTAAConfig).settingsAAMode = AntialiasingMode.None) ∧
      (RenderInner orthoTAAConfig).settingsAAMode ≠ AntialiasingMode.TemporalAntialiasing ∧
      FrameEvent.taaRender ∉ (RenderInner orthoTAAConfig).events) :=
  ⟨rfl, RenderInner_taa_ortho_downgrade orthoTAAConfig rfl⟩

/-- Claim C7: the anti-aliasing resolve fork. With no postFx registered at
the AfterAntiAliasingPass location and full-resolution rendering
(`RenderingPercentage` equal to one), AA writes straight to the swapchain
output. Otherwise AA resolves into the scratch buffer, the remaining
AfterAntiAliasingPass custom and material postFx run, and the result reaches
the swapchain by exactly one of: a direct full-resolution copy (percentage at
least one), a registered CustomUpscale postFx, or the built-in MultiScaler
upscale. -/
theorem aaResolve_fork (cfg : FrameConfig) :
    (cfg.hasAfterAAPostFx = false → cfg.renderingPercentageIsOne = true →
      aaResolve cfg = [FrameEvent.aaToOutput]) ∧
    (cfg.hasAfterAAPostFx = true ∨ cfg.renderingPercentageIsOne = false →
      (aaResolve cfg).take 3
          = [FrameEvent.aaToTempBuffer, FrameEvent.afterAACustomFx,
             FrameEvent.afterAAMaterialFx] ∧
      ((cfg.renderingPercentageGeOne = true ∧
          (aaResolve cfg).drop 3 = [FrameEvent.copyFrameToOutput]) ∨
       (cfg.renderingPercentageGeOne = false ∧ cfg.hasCustomUpscale = true ∧
          (aaResolve cfg).drop 3 = [FrameEvent.customUpscaleFx]) ∨
       (cfg.renderingPercentageGeOne = false ∧ cfg.hasCustomUpscale = false ∧
          (aaResolve cfg).drop 3 = [FrameEvent.multiScalerUpscale]))) := by
  obtain ⟨vm, aaf, bm, ortho, dof, lut, aa, p1, pg, cu⟩ := cfg
  cases aa <;> cases p1 <;> cases pg <;> cases cu <;> simp [aaResolve]

theorem aaResolve_fork_witness :
    aaResolve directBlitConfig = [FrameEvent.aaToOutput] ∧
    ((aaResolve postFxAAConfig).take 3
        = [FrameEvent.aaToTempBuffer, FrameEvent.afterAACustomFx,
           FrameEvent.afterAAMaterialFx] ∧
      ((postFxAAConfig.renderingPercentageGeOne = true ∧
          (aaResolve postFxAAConfig).drop 3 = [FrameEvent.copyFrameToOutput]) ∨
       (postFxAAConfig.renderingPercentageGeOne = false ∧
          postFxAAConfig.hasCustomUpscale = true ∧
          (aaResolve postFxAAConfig).drop 3 = [FrameEvent.customUpscaleFx]) ∨
       (postFxAAConfig.renderingPercentageGeOne = false ∧
          postFxAAConfig.hasCustomUpscale = false ∧
          (aaResolve postFxAAConfig).drop 3 = [FrameEvent.multiScalerUpscale]))) :=
  ⟨(aaResolve_fork directBlitConfig).1 rfl rfl,
    (aaResolve_fork postFxAAConfig).2 (Or.inl rfl)⟩
